import Mathlib

/-!
Shallow embedding of the deterministic geometry layer of
`@esengine/nova-ecs-render-core`: the camera transform
(`BaseGameRenderer.worldToScreen` / `screenToWorld` / `setCamera`), the
sprite-animation frame resolver (`BaseGameRenderer.getCurrentAnimationFrame`,
`drawSprite`), and the debug-geometry synthesizers
(`BaseDebugRenderer.drawArrow`, `BaseDebugRenderer.drawGrid`,
`BasePhysicsDebugRenderer.drawJointLimits`).

The external FixedMath collaborator (`@esengine/nova-ecs-math`) is not part
of this repository; following the design spec it provides deterministic
fixed-point scalars with exact add/sub/mul/div, comparisons, a true
floor (floor-division, not truncation), and trigonometric approximations.
Scalars are therefore modelled as exact rationals (`ℚ`), and the
trigonometric approximations (`Math.cos`/`Math.sin` routed through `Fixed`)
as explicit function parameters `cosF sinF : ℚ → ℚ`, so every theorem states
precisely which facts about the approximation it needs.
-/

namespace NovaRender

/-- `FixedVector2` from the external math library: an immutable 2D vector. -/
structure Vec2 where
  x : ℚ
  y : ℚ
deriving DecidableEq

/-- `FixedVector2.add`. -/
def Vec2.add (v w : Vec2) : Vec2 := ⟨v.x + w.x, v.y + w.y⟩

/-- `FixedVector2.subtract`. -/
def Vec2.subtract (v w : Vec2) : Vec2 := ⟨v.x - w.x, v.y - w.y⟩

/-- `FixedVector2.multiply` by a scalar. -/
def Vec2.multiply (v : Vec2) (k : ℚ) : Vec2 := ⟨v.x * k, v.y * k⟩

/-- `FixedRect` from the external math library. -/
structure Rect where
  x : ℚ
  y : ℚ
  width : ℚ
  height : ℚ
deriving DecidableEq

/-- RGBA color record (`Color` in `RenderTypes.ts`). -/
structure Color where
  r : ℚ
  g : ℚ
  b : ℚ
  a : ℚ
deriving DecidableEq

/-- Line style: the `{ color, thickness }` records built inline by the
debug renderer draw helpers. -/
structure LineStyle where
  color : Color
  thickness : ℚ
deriving DecidableEq

/-- Shape style for polygon draws (`fillColor` / `strokeColor` /
`strokeThickness`, each optional). -/
structure ShapeStyle where
  fillColor : Option Color
  strokeColor : Option Color
  strokeThickness : Option ℚ
deriving DecidableEq

/-- A primitive draw call emitted to the backend (`drawLine`,
`drawPolygon`, `drawTextureRegion` of the primitive surface). Texture
handles are opaque and modelled as `ℕ`. -/
inductive DrawCmd where
  | line (a b : Vec2) (style : LineStyle)
  | polygon (vertices : List Vec2) (style : ShapeStyle)
  | textureRegion (texture : ℕ) (sourceRect destRect : Rect)
deriving DecidableEq

/-- `Viewport` (`BaseRenderer.viewport`): plain-number rectangle. -/
structure Viewport where
  x : ℚ
  y : ℚ
  width : ℚ
  height : ℚ
deriving DecidableEq

/-- `CameraConfig` from `IGameRenderer.ts`. -/
structure CameraConfig where
  position : Vec2
  zoom : ℚ
  rotation : ℚ
  bounds : Option Rect := none
  followTarget : Option Vec2 := none
  followSpeed : Option ℚ := none
  deadZone : Option Rect := none
deriving DecidableEq

/-- The camera-related state of a `BaseGameRenderer` instance. -/
structure RendererState where
  camera : CameraConfig
  viewport : Viewport
deriving DecidableEq

/-- `BaseGameRenderer.setCamera`: `this.camera = { ...config }` — the
config is stored wholesale (shallow copy), with no validation of any
field, then `onCameraChanged` is notified. -/
def setCamera (st : RendererState) (config : CameraConfig) : RendererState :=
  { st with camera := config }

/-- `BaseGameRenderer.worldToScreen`. `cosF`/`sinF` are the fixed-point
images of `Math.cos`/`Math.sin` applied to the rotation angle. -/
def worldToScreen (cosF sinF : ℚ → ℚ) (camera : CameraConfig)
    (viewport : Viewport) (worldPos : Vec2) : Vec2 :=
  let cameraRelative := worldPos.subtract camera.position
  let scaled : Vec2 := ⟨cameraRelative.x * camera.zoom, cameraRelative.y * camera.zoom⟩
  let rotated : Vec2 :=
    if camera.rotation = 0 then scaled
    else
      let c := cosF camera.rotation
      let s := sinF camera.rotation
      ⟨scaled.x * c - scaled.y * s, scaled.x * s + scaled.y * c⟩
  let screenCenter : Vec2 := ⟨viewport.width / 2, viewport.height / 2⟩
  screenCenter.add rotated

/-- `BaseGameRenderer.screenToWorld`: the inverse transform, using the
rotation angle negated before the trig calls. -/
def screenToWorld (cosF sinF : ℚ → ℚ) (camera : CameraConfig)
    (viewport : Viewport) (screenPos : Vec2) : Vec2 :=
  let screenCenter : Vec2 := ⟨viewport.width / 2, viewport.height / 2⟩
  let cameraRelative := screenPos.subtract screenCenter
  let unrotated : Vec2 :=
    if camera.rotation = 0 then cameraRelative
    else
      let c := cosF (-camera.rotation)
      let s := sinF (-camera.rotation)
      ⟨cameraRelative.x * c - cameraRelative.y * s,
       cameraRelative.x * s + cameraRelative.y * c⟩
  let unscaled : Vec2 := ⟨unrotated.x / camera.zoom, unrotated.y / camera.zoom⟩
  unscaled.add camera.position

/-- `AnimationFrame` from `IGameRenderer.ts`: texture reference (opaque),
source region, and duration. -/
structure AnimationFrame where
  texture : ℕ
  sourceRect : Rect
  duration : ℚ
deriving DecidableEq

/-- `SpriteAnimation` from `IGameRenderer.ts`. -/
structure SpriteAnimation where
  name : String
  frames : List AnimationFrame
  loop : Bool
  playbackSpeed : ℚ
deriving DecidableEq

/-- The `totalDuration` accumulation loop at the top of
`getCurrentAnimationFrame`: `Σ frame.duration / playbackSpeed`. -/
def totalDuration (a : SpriteAnimation) : ℚ :=
  a.frames.foldl (fun acc f => acc + f.duration / a.playbackSpeed) 0

/-- The frame walk at the bottom of `getCurrentAnimationFrame`: accumulate
`frame.duration / playbackSpeed`, returning the first frame whose
accumulated upper bound strictly exceeds `animTime`; `none` when the walk
falls off the end (the source then returns the last frame). -/
def walkFrames (speed animTime : ℚ) : ℚ → List AnimationFrame → Option AnimationFrame
  | _, [] => none
  | accumulatedTime, f :: rest =>
      let frameDuration := f.duration / speed
      if animTime < accumulatedTime + frameDuration then some f
      else walkFrames speed animTime (accumulatedTime + frameDuration) rest

/-- `BaseGameRenderer.getCurrentAnimationFrame`. Returns `none` exactly
when the source returns `null` (empty frame list). -/
def getCurrentAnimationFrame (a : SpriteAnimation) (currentTime : ℚ) :
    Option AnimationFrame :=
  match a.frames with
  | [] => none
  | f0 :: rest =>
      let total := totalDuration a
      if total = 0 then some f0
      else
        let lastFrame := List.getLastD rest f0
        if a.loop then
          let quotient : ℚ := (⌊currentTime / total⌋ : ℤ)
          let animTime := currentTime - quotient * total
          some ((walkFrames a.playbackSpeed animTime 0 a.frames).getD lastFrame)
        else if currentTime > total then some lastFrame
        else some ((walkFrames a.playbackSpeed currentTime 0 a.frames).getD lastFrame)

/-- `BaseGameRenderer.drawSpriteFromAtlas`: builds the destination
rectangle at `position` with the size of the source region and emits one
texture-region draw call. -/
def drawSpriteFromAtlas (texture : ℕ) (sourceRect : Rect) (position : Vec2) :
    List DrawCmd :=
  let destRect : Rect := ⟨position.x, position.y, sourceRect.width, sourceRect.height⟩
  [DrawCmd.textureRegion texture sourceRect destRect]

/-- `BaseGameRenderer.drawSprite`: resolves the current frame and draws it;
when no frame resolves (`null`) it draws nothing. -/
def drawSprite (a : SpriteAnimation) (position : Vec2) (currentTime : ℚ) :
    List DrawCmd :=
  match getCurrentAnimationFrame a currentTime with
  | some frame => drawSpriteFromAtlas frame.texture frame.sourceRect position
  | none => []

/-- `BaseDebugRenderer.drawArrow`. The external `FixedVector2.normalize`
is passed in as a parameter (`normalize`), since its implementation lives
outside this repository; `axisLength` is `debugConfig.axisLength`, used
for the default head size when `headSize` is not supplied (in the source
`headSize || ...` — a `Fixed` object is always truthy, so only an absent
argument falls back). Emits the shaft line then the two arrowhead lines,
unconditionally. -/
def drawArrow (normalize : Vec2 → Vec2) (axisLength : ℚ)
    (start endPos : Vec2) (color : Color) (headSize : Option ℚ) : List DrawCmd :=
  let arrowHeadSize := headSize.getD (axisLength / 10)
  let direction := normalize (endPos.subtract start)
  let perpendicular : Vec2 := ⟨-direction.y, direction.x⟩
  let headBase := endPos.subtract (direction.multiply arrowHeadSize)
  let headLeft := headBase.add (perpendicular.multiply (arrowHeadSize / 2))
  let headRight := headBase.subtract (perpendicular.multiply (arrowHeadSize / 2))
  [DrawCmd.line start endPos ⟨color, 1⟩,
   DrawCmd.line endPos headLeft ⟨color, 1⟩,
   DrawCmd.line endPos headRight ⟨color, 1⟩]

/-- `GridStyle` from `RenderTypes.ts`: base line style, optional major
line style, optional major line interval. -/
structure GridStyle where
  lineStyle : LineStyle
  majorLineStyle : Option LineStyle
  majorLineInterval : Option ℕ
deriving DecidableEq

/-- The `isMainLine` selection inside the loops of `drawGrid`:
`style.majorLineStyle && style.majorLineInterval && lineCount % interval === 0`
(JS truthiness: an interval of `0` is falsy and never selects the major
style). -/
def gridLineStyle (style : GridStyle) (lineCount : ℕ) : LineStyle :=
  match style.majorLineStyle, style.majorLineInterval with
  | some major, some interval =>
      if interval ≠ 0 ∧ lineCount % interval = 0 then major else style.lineStyle
  | _, _ => style.lineStyle

/-- The coordinate loop of `drawGrid`
(`for (let x = startX; x.lessThanOrEqual(endX); x = x.add(spacing))`),
with explicit fuel: `none` means the loop did not finish within `fuel`
iterations (for `spacing ≤ 0` with `x ≤ endX` it never finishes),
`some xs` the finished list of visited coordinates. -/
def gridSteps (spacing endC : ℚ) : ℕ → ℚ → Option (List ℚ)
  | 0, x => if x ≤ endC then none else some []
  | fuel + 1, x =>
      if x ≤ endC then (gridSteps spacing endC fuel (x + spacing)).map (x :: ·)
      else some []

/-- `BaseDebugRenderer.drawGrid`: when `showGrid` is on, snap the start
coordinates down (`bounds.x.divide(spacing).floor().multiply(spacing)`),
then emit one vertical line per step from `startX` while `≤ endX` and one
horizontal line per step from `startY` while `≤ endY`, counting major
lines per axis. `bounds` is the world-space view rectangle
(`getViewBounds()`); `fuel` bounds both loops, `none` marking a loop that
does not terminate within it. -/
def drawGrid (showGrid : Bool) (bounds : Rect) (spacing : ℚ)
    (style : GridStyle) (fuel : ℕ) : Option (List DrawCmd) :=
  if !showGrid then some []
  else
    let startX := (⌊bounds.x / spacing⌋ : ℤ) * spacing
    let startY := (⌊bounds.y / spacing⌋ : ℤ) * spacing
    let endX := bounds.x + bounds.width
    let endY := bounds.y + bounds.height
    match gridSteps spacing endX fuel startX, gridSteps spacing endY fuel startY with
    | some xs, some ys =>
        some
          ((xs.enum.map fun p =>
              DrawCmd.line ⟨p.2, bounds.y⟩ ⟨p.2, bounds.y + bounds.height⟩
                (gridLineStyle style p.1)) ++
           (ys.enum.map fun p =>
              DrawCmd.line ⟨bounds.x, p.2⟩ ⟨bounds.x + bounds.width, p.2⟩
                (gridLineStyle style p.1)))
    | _, _ => none

/-- `BasePhysicsDebugRenderer.drawJointLimits`: tessellates the angular
range into a fixed 16 segments, sampling `center + radius·(cos θ, sin θ)`
at `θ = minAngle + i·(maxAngle−minAngle)/16` for `i = 0..16`, and emits a
single filled-and-outlined polygon whose vertices are the center followed
by the 17 perimeter samples. `jointLimitColor` is
`physicsConfig.colors.jointLimit`; the fill replaces its alpha by `0.3`. -/
def drawJointLimits (cosF sinF : ℚ → ℚ) (jointLimitColor : Color)
    (center : Vec2) (minAngle maxAngle radius : ℚ) : List DrawCmd :=
  let segments : ℕ := 16
  let angleRange := maxAngle - minAngle
  let angleStep := angleRange / (segments : ℚ)
  let points : List Vec2 :=
    center ::
      ((List.range (segments + 1)).map fun i =>
        let angle := minAngle + angleStep * (i : ℚ)
        center.add ⟨cosF angle * radius, sinF angle * radius⟩)
  [DrawCmd.polygon points
    ⟨some { jointLimitColor with a := 3 / 10 }, some jointLimitColor, some 1⟩]

/-! Concrete fixtures used by the theorems below. -/

/-- A unit source region shared by the test animations. -/
def rectUnit : Rect := ⟨0, 0, 1, 1⟩

/-- Frame number `i` of the test animations: texture handle `i`,
unit source region, duration `1`. -/
def animFrame (i : ℕ) : AnimationFrame := ⟨i, rectUnit, 1⟩

/-- The 3-frame, 1-second-per-frame, playback-speed-1 animation of the
spec test cases, with the loop flag as a parameter. -/
def threeFrameAnim (loop : Bool) : SpriteAnimation :=
  ⟨"anim", [animFrame 0, animFrame 1, animFrame 2], loop, 1⟩

/-- An animation whose frame list is empty. -/
def emptyAnim : SpriteAnimation := ⟨"empty", [], false, 1⟩

/-- An opaque red used where a concrete color is needed. -/
def colorRed : Color := ⟨1, 0, 0, 1⟩

/-- C2: on the 3-frame non-looping animation (1 second per frame,
playback speed 1) the resolver returns frame index 2 at `currentTime =
2.5` (clamped walk result), frame index 0 at `0.5`, and frame index 1 at
`1.0` — the boundary exactly at the accumulated upper bound belongs to
the next frame because the walk compares with strict less-than. -/
theorem nonloop_frame_selection :
    getCurrentAnimationFrame (threeFrameAnim false) (5 / 2) = some (animFrame 2) ∧
    getCurrentAnimationFrame (threeFrameAnim false) (1 / 2) = some (animFrame 0) ∧
    getCurrentAnimationFrame (threeFrameAnim false) 1 = some (animFrame 1) := by
  refine ⟨?_, ?_, ?_⟩ <;>
    norm_num [getCurrentAnimationFrame, totalDuration, walkFrames, threeFrameAnim,
      animFrame]

/-- C4 counterexample: for an animation with no frames the code does not
surface any error — `getCurrentAnimationFrame` returns `null` (`none`)
and `drawSprite` silently emits no draw call at all. -/
theorem emptyAnim_silently_skipped :
    getCurrentAnimationFrame emptyAnim 0 = none ∧
    drawSprite emptyAnim ⟨0, 0⟩ 0 = [] :=
  ⟨rfl, rfl⟩

/-- C4 amended: for every animation whose frame list is empty and every
current time and position, `getCurrentAnimationFrame` returns no frame
(`null`) and `drawSprite` draws nothing — the empty animation is skipped
silently, no EmptyAnimation error exists in the code. -/
theorem emptyFrames_returns_none (a : SpriteAnimation) (position : Vec2)
    (currentTime : ℚ) (hf : a.frames = []) :
    getCurrentAnimationFrame a currentTime = none ∧
    drawSprite a position currentTime = [] := by
  have h1 : getCurrentAnimationFrame a currentTime = none := by
    unfold getCurrentAnimationFrame
    rw [hf]
  exact ⟨h1, by unfold drawSprite; rw [h1]⟩

/-- C4 amended, witness at a concrete empty animation. -/
theorem emptyFrames_returns_none_witness :
    getCurrentAnimationFrame ⟨"e2", [], true, 2⟩ 5 = none ∧
    drawSprite ⟨"e2", [], true, 2⟩ ⟨1, 2⟩ 5 = [] :=
  emptyFrames_returns_none ⟨"e2", [], true, 2⟩ ⟨1, 2⟩ 5 rfl

/-- C5 counterexample: `drawArrow` with `start == end` (here `(1,1)`,
with a normalize that maps the zero vector to the zero vector) emits
three line draw calls — the shaft plus two arrowhead lines, all
degenerate — not exactly one. -/
theorem drawArrow_degenerate_three_calls :
    drawArrow (fun _ => ⟨0, 0⟩) 2 ⟨1, 1⟩ ⟨1, 1⟩ colorRed none =
      [DrawCmd.line ⟨1, 1⟩ ⟨1, 1⟩ ⟨colorRed, 1⟩,
       DrawCmd.line ⟨1, 1⟩ ⟨1, 1⟩ ⟨colorRed, 1⟩,
       DrawCmd.line ⟨1, 1⟩ ⟨1, 1⟩ ⟨colorRed, 1⟩] ∧
    (drawArrow (fun _ => ⟨0, 0⟩) 2 ⟨1, 1⟩ ⟨1, 1⟩ colorRed none).length ≠ 1 := by
  constructor
  · norm_num [drawArrow, Vec2.subtract, Vec2.add, Vec2.multiply]
  · norm_num [drawArrow]

/-- C5 amended: `drawArrow` always emits exactly three line draw calls
(shaft plus two arrowhead lines), and when `start == end` — provided the
external normalize maps the zero vector to the zero vector — the two
arrowhead lines degenerate to the point `end` (no NaN-equivalent in the
emitted geometry, but the arrowhead is not skipped either). -/
theorem drawArrow_three_lines (normalize : Vec2 → Vec2) (axisLength : ℚ)
    (p : Vec2) (color : Color) (headSize : Option ℚ)
    (hz : normalize ⟨0, 0⟩ = ⟨0, 0⟩) :
    (∀ s e, (drawArrow normalize axisLength s e color headSize).length = 3) ∧
    drawArrow normalize axisLength p p color headSize =
      [DrawCmd.line p p ⟨color, 1⟩, DrawCmd.line p p ⟨color, 1⟩,
       DrawCmd.line p p ⟨color, 1⟩] := by
  constructor
  · intro s e
    rfl
  · obtain ⟨px, py⟩ := p
    have hsub : Vec2.subtract ⟨px, py⟩ ⟨px, py⟩ = ⟨0, 0⟩ := by
      simp [Vec2.subtract]
    simp [drawArrow, hsub, hz, Vec2.subtract, Vec2.add, Vec2.multiply]

/-- C5 amended, witness at a concrete point and head size. -/
theorem drawArrow_three_lines_witness :
    drawArrow (fun _ => ⟨0, 0⟩) 2 ⟨3, 4⟩ ⟨3, 4⟩ colorRed (some 1) =
      [DrawCmd.line ⟨3, 4⟩ ⟨3, 4⟩ ⟨colorRed, 1⟩,
       DrawCmd.line ⟨3, 4⟩ ⟨3, 4⟩ ⟨colorRed, 1⟩,
       DrawCmd.line ⟨3, 4⟩ ⟨3, 4⟩ ⟨colorRed, 1⟩] :=
  (drawArrow_three_lines (fun _ => ⟨0, 0⟩) 2 ⟨3, 4⟩ colorRed (some 1) rfl).2

/-- The running total of `frame.duration / speed` stays nonnegative when
all durations are nonnegative and the speed is nonnegative. -/
theorem foldlDur_nonneg (speed : ℚ) (hs : 0 ≤ speed) :
    ∀ (l : List AnimationFrame) (acc : ℚ), 0 ≤ acc →
      (∀ f ∈ l, 0 ≤ f.duration) →
      0 ≤ l.foldl (fun acc2 f => acc2 + f.duration / speed) acc
  | [], acc, hacc, _ => hacc
  | f :: rest, acc, hacc, hl =>
      foldlDur_nonneg speed hs rest (acc + f.duration / speed)
        (by
          have : 0 ≤ f.duration / speed :=
            div_nonneg (hl f (List.mem_cons_self f rest)) hs
          linarith)
        (fun g hg => hl g (List.mem_cons_of_mem f hg))

/-- C10: on every non-looping animation with a non-empty frame list
(respecting the data-model invariants: nonnegative frame durations and a
positive playback speed), every negative current time resolves to the
first frame — the negative time is below the accumulated upper bound of
the first frame in the walk, and the zero-total-duration early return
also yields the first frame. -/
theorem nonloop_negative_time_first_frame (a : SpriteAnimation) (t : ℚ)
    (f0 : AnimationFrame) (rest : List AnimationFrame)
    (hf : a.frames = f0 :: rest) (hl : a.loop = false)
    (hdur : ∀ f ∈ a.frames, 0 ≤ f.duration) (hs : 0 < a.playbackSpeed)
    (ht : t < 0) :
    getCurrentAnimationFrame a t = some f0 := by
  have htot : 0 ≤ totalDuration a := by
    unfold totalDuration
    rw [hf]
    exact foldlDur_nonneg a.playbackSpeed hs.le (f0 :: rest) 0 le_rfl
      (by rw [← hf]; exact hdur)
  have hwalk : walkFrames a.playbackSpeed t 0 (f0 :: rest) = some f0 := by
    have hfd : 0 ≤ f0.duration / a.playbackSpeed :=
      div_nonneg (hdur f0 (by rw [hf]; exact List.mem_cons_self f0 rest)) hs.le
    have hcond : t < 0 + f0.duration / a.playbackSpeed := by linarith
    show (if t < 0 + f0.duration / a.playbackSpeed then some f0
          else walkFrames a.playbackSpeed t (0 + f0.duration / a.playbackSpeed) rest) =
        some f0
    rw [if_pos hcond]
  unfold getCurrentAnimationFrame
  rw [hf]
  by_cases h0 : totalDuration a = 0
  · simp [h0]
  · have hngt : ¬ t > totalDuration a := by linarith
    simp [h0, hl, hngt, hwalk]

/-- C10, witness: the 3-frame non-looping animation at `currentTime = -1`
resolves to frame index 0. -/
theorem nonloop_negative_time_first_frame_witness :
    getCurrentAnimationFrame (threeFrameAnim false) (-1) = some (animFrame 0) :=
  nonloop_negative_time_first_frame (threeFrameAnim false) (-1) (animFrame 0)
    [animFrame 1, animFrame 2] rfl rfl
    (by intro f hfm
        simp only [threeFrameAnim, animFrame, List.mem_cons,
          List.not_mem_nil, or_false] at hfm
        rcases hfm with rfl | rfl | rfl <;> norm_num)
    (by norm_num [threeFrameAnim]) (by norm_num)

/-- C3: for every looping animation with positive total effective
duration `d` and every current time `t` (negative included), the wrapped
time `t − ⌊t/d⌋·d` lies in `[0, d)` and the resolver selects exactly the
frame it would select at that wrapped time; concretely, the 3-frame
1-second-per-frame looping animation at `currentTime = 3.5` (total
duration 3) resolves to frame index 0. -/
theorem loop_wraps_to_modulo (a : SpriteAnimation) (t : ℚ)
    (hl : a.loop = true) (hd : 0 < totalDuration a) :
    0 ≤ t - (⌊t / totalDuration a⌋ : ℤ) * totalDuration a ∧
    t - (⌊t / totalDuration a⌋ : ℤ) * totalDuration a < totalDuration a ∧
    getCurrentAnimationFrame a t =
      getCurrentAnimationFrame a
        (t - (⌊t / totalDuration a⌋ : ℤ) * totalDuration a) ∧
    getCurrentAnimationFrame (threeFrameAnim true) (7 / 2) = some (animFrame 0) := by
  have hd0 : totalDuration a ≠ 0 := hd.ne'
  have hfr : t - (⌊t / totalDuration a⌋ : ℤ) * totalDuration a =
      totalDuration a * Int.fract (t / totalDuration a) := by
    unfold Int.fract
    field_simp
    ring
  have h0le : 0 ≤ t - (⌊t / totalDuration a⌋ : ℤ) * totalDuration a := by
    rw [hfr]
    exact mul_nonneg hd.le (Int.fract_nonneg _)
  have hlt : t - (⌊t / totalDuration a⌋ : ℤ) * totalDuration a < totalDuration a := by
    rw [hfr]
    exact mul_lt_of_lt_one_right hd (Int.fract_lt_one _)
  refine ⟨h0le, hlt, ?_, ?_⟩
  · have hfloor0 :
        (⌊(t - (⌊t / totalDuration a⌋ : ℤ) * totalDuration a) / totalDuration a⌋ : ℤ) = 0 := by
      rw [Int.floor_eq_zero_iff]
      constructor
      · exact div_nonneg h0le hd.le
      · exact (div_lt_one hd).2 hlt
    rcases hfs : a.frames with _ | ⟨f0, rest⟩
    · exact absurd hd (by simp [totalDuration, hfs])
    · unfold getCurrentAnimationFrame
      rw [hfs]
      simp only [hd0, hl, if_false, if_true, ite_true, ite_false, reduceIte]
      rw [hfloor0]
      norm_num
  · norm_num [getCurrentAnimationFrame, totalDuration, walkFrames, threeFrameAnim,
      animFrame, Int.floor_eq_iff]

/-- C3, witness: instantiated at the looping 3-frame animation and the
negative current time `-0.5`. -/
theorem loop_wraps_to_modulo_witness :
    getCurrentAnimationFrame (threeFrameAnim true) (7 / 2) = some (animFrame 0) :=
  (loop_wraps_to_modulo (threeFrameAnim true) (-1 / 2) rfl
    (by norm_num [totalDuration, threeFrameAnim, animFrame])).2.2.2

/-- The world-space view bounds `[-2.4, 5.6] × [0, 10]` of the grid test
case (`x = -2.4`, `width = 8`, so the opposite bound is `5.6`). -/
def gridBounds : Rect := ⟨-12 / 5, 0, 8, 10⟩

/-- A grid style with no major-line configuration. -/
def gridStyleBase : GridStyle := ⟨⟨colorRed, 1⟩, none, none⟩

/-- The draw calls `drawGrid` actually emits over `gridBounds` with
spacing 1: vertical lines at `x = -3..5`, then horizontal lines at
`y = 0..10`. -/
def gridExpected : List DrawCmd :=
  [DrawCmd.line ⟨-3, 0⟩ ⟨-3, 10⟩ ⟨colorRed, 1⟩,
   DrawCmd.line ⟨-2, 0⟩ ⟨-2, 10⟩ ⟨colorRed, 1⟩,
   DrawCmd.line ⟨-1, 0⟩ ⟨-1, 10⟩ ⟨colorRed, 1⟩,
   DrawCmd.line ⟨0, 0⟩ ⟨0, 10⟩ ⟨colorRed, 1⟩,
   DrawCmd.line ⟨1, 0⟩ ⟨1, 10⟩ ⟨colorRed, 1⟩,
   DrawCmd.line ⟨2, 0⟩ ⟨2, 10⟩ ⟨colorRed, 1⟩,
   DrawCmd.line ⟨3, 0⟩ ⟨3, 10⟩ ⟨colorRed, 1⟩,
   DrawCmd.line ⟨4, 0⟩ ⟨4, 10⟩ ⟨colorRed, 1⟩,
   DrawCmd.line ⟨5, 0⟩ ⟨5, 10⟩ ⟨colorRed, 1⟩,
   DrawCmd.line ⟨-12 / 5, 0⟩ ⟨28 / 5, 0⟩ ⟨colorRed, 1⟩,
   DrawCmd.line ⟨-12 / 5, 1⟩ ⟨28 / 5, 1⟩ ⟨colorRed, 1⟩,
   DrawCmd.line ⟨-12 / 5, 2⟩ ⟨28 / 5, 2⟩ ⟨colorRed, 1⟩,
   DrawCmd.line ⟨-12 / 5, 3⟩ ⟨28 / 5, 3⟩ ⟨colorRed, 1⟩,
   DrawCmd.line ⟨-12 / 5, 4⟩ ⟨28 / 5, 4⟩ ⟨colorRed, 1⟩,
   DrawCmd.line ⟨-12 / 5, 5⟩ ⟨28 / 5, 5⟩ ⟨colorRed, 1⟩,
   DrawCmd.line ⟨-12 / 5, 6⟩ ⟨28 / 5, 6⟩ ⟨colorRed, 1⟩,
   DrawCmd.line ⟨-12 / 5, 7⟩ ⟨28 / 5, 7⟩ ⟨colorRed, 1⟩,
   DrawCmd.line ⟨-12 / 5, 8⟩ ⟨28 / 5, 8⟩ ⟨colorRed, 1⟩,
   DrawCmd.line ⟨-12 / 5, 9⟩ ⟨28 / 5, 9⟩ ⟨colorRed, 1⟩,
   DrawCmd.line ⟨-12 / 5, 10⟩ ⟨28 / 5, 10⟩ ⟨colorRed, 1⟩]

/-- C6 counterexample: over view bounds `[-2.4, 5.6]` with spacing 1 the
snapped start is `floor(-2.4) = -3`, so `drawGrid` also emits a vertical
line at `x = -3`, which is not in the claimed set `{-2, …, 5}`. -/
theorem drawGrid_emits_minus_three :
    drawGrid true gridBounds 1 gridStyleBase 12 = some gridExpected ∧
    DrawCmd.line ⟨-3, 0⟩ ⟨-3, 10⟩ ⟨colorRed, 1⟩ ∈ gridExpected ∧
    (-3 : ℚ) ∉ ([-2, -1, 0, 1, 2, 3, 4, 5] : List ℚ) := by
  refine ⟨?_, ?_, ?_⟩
  · norm_num [drawGrid, gridSteps, gridLineStyle, gridBounds, gridStyleBase,
      gridExpected, List.enum, List.enumFrom, Int.floor_eq_iff]
  · norm_num [gridExpected]
  · norm_num

/-- C6 amended: grid synthesis with spacing 1 over view bounds
`[-2.4, 5.6]` snaps the start down to `floor(-2.4/1)·1 = -3` and emits
vertical lines at exactly `{-3, -2, -1, 0, 1, 2, 3, 4, 5}`, stepping by
the spacing while not exceeding the opposite bound, inclusive of both
ends. -/
theorem drawGrid_vertical_lines_floor_snapped :
    ((⌊gridBounds.x / (1 : ℚ)⌋ : ℤ) : ℚ) * 1 = -3 ∧
    gridSteps 1 (gridBounds.x + gridBounds.width) 12
        (((⌊gridBounds.x / (1 : ℚ)⌋ : ℤ) : ℚ) * 1) =
      some [-3, -2, -1, 0, 1, 2, 3, 4, 5] ∧
    drawGrid true gridBounds 1 gridStyleBase 12 = some gridExpected := by
  refine ⟨?_, ?_, ?_⟩
  · norm_num [gridBounds, Int.floor_eq_iff]
  · norm_num [gridSteps, gridBounds, Int.floor_eq_iff]
  · norm_num [drawGrid, gridSteps, gridLineStyle, gridBounds, gridStyleBase,
      gridExpected, List.enum, List.enumFrom, Int.floor_eq_iff]

/-- With nonpositive spacing the coordinate loop of `drawGrid` never
exits once the guard holds: every fuel is exhausted. -/
theorem gridSteps_nonpos_none (spacing endC : ℚ) (hs : spacing ≤ 0) :
    ∀ (fuel : ℕ) (x : ℚ), x ≤ endC → gridSteps spacing endC fuel x = none := by
  intro fuel
  induction fuel with
  | zero => intro x hx; simp [gridSteps, hx]
  | succ n ih =>
      intro x hx
      have hx2 : x + spacing ≤ endC := by linarith
      simp [gridSteps, hx, ih (x + spacing) hx2]

/-- C8 (code bug): `drawGrid` performs no spacing validation at all. With
`spacing = -1` over the test view bounds the snapped start `-2` satisfies
the loop guard and every iteration moves `x` further down, so the loop
never terminates — for every fuel the model returns `none` (no draw-call
list is ever produced, and no InvalidConfiguration error exists in the
code). -/
theorem drawGrid_negative_spacing_never_terminates (fuel : ℕ) :
    drawGrid true gridBounds (-1) gridStyleBase fuel = none := by
  have hstart : ((⌊gridBounds.x / (-1 : ℚ)⌋ : ℤ) : ℚ) * (-1) = -2 := by
    norm_num [gridBounds, Int.floor_eq_iff]
  have hv : gridSteps (-1) (gridBounds.x + gridBounds.width) fuel
      (-((⌊gridBounds.x / (-1 : ℚ)⌋ : ℤ) : ℚ)) = none := by
    apply gridSteps_nonpos_none _ _ (by norm_num)
    have : -((⌊gridBounds.x / (-1 : ℚ)⌋ : ℤ) : ℚ) =
        ((⌊gridBounds.x / (-1 : ℚ)⌋ : ℤ) : ℚ) * (-1) := by ring
    rw [this, hstart]
    norm_num [gridBounds]
  have hh : gridSteps (-1) (gridBounds.y + gridBounds.height) fuel
      (-((⌊gridBounds.y / (-1 : ℚ)⌋ : ℤ) : ℚ)) = none := by
    apply gridSteps_nonpos_none _ _ (by norm_num)
    norm_num [gridBounds, Int.floor_eq_iff]
  unfold drawGrid
  simp [hv, hh]

/-- C9: `drawJointLimits` uses a fixed, non-configurable 16 segments and
emits exactly one polygon draw call whose vertex list is the center
followed by the 17 perimeter samples
`center + radius·(cos θᵢ, sin θᵢ)` at `θᵢ = minAngle + (maxAngle −
minAngle)/16 · i` for `i = 0..16` inclusive — 18 vertices in total. -/
theorem drawJointLimits_fan (cosF sinF : ℚ → ℚ) (col : Color) (center : Vec2)
    (minAngle maxAngle radius : ℚ) :
    (drawJointLimits cosF sinF col center minAngle maxAngle radius).length = 1 ∧
    drawJointLimits cosF sinF col center minAngle maxAngle radius =
      [DrawCmd.polygon
        (center :: (List.range 17).map fun i =>
          center.add
            ⟨cosF (minAngle + (maxAngle - minAngle) / 16 * (i : ℚ)) * radius,
             sinF (minAngle + (maxAngle - minAngle) / 16 * (i : ℚ)) * radius⟩)
        ⟨some { col with a := 3 / 10 }, some col, some 1⟩] ∧
    (center :: (List.range 17).map fun i =>
        center.add
          ⟨cosF (minAngle + (maxAngle - minAngle) / 16 * (i : ℚ)) * radius,
           sinF (minAngle + (maxAngle - minAngle) / 16 * (i : ℚ)) * radius⟩).length
      = 18 := by
  refine ⟨rfl, ?_, ?_⟩
  · norm_num [drawJointLimits]
  · rfl

/-- A camera configuration with zoom `0`. -/
def zeroZoomConfig : CameraConfig := ⟨⟨0, 0⟩, 0, 0, none, none, none, none⟩

/-- A renderer state with the default identity-like camera and the
default `800×600` viewport. -/
def baseState : RendererState := ⟨⟨⟨0, 0⟩, 1, 0, none, none, none, none⟩, ⟨0, 0, 800, 600⟩⟩

/-- C7 counterexample: `setCamera` silently accepts a configuration with
zoom `0` — the stored camera equals the passed configuration verbatim
(zoom still `0`), with no error and no clamping anywhere. -/
theorem setCamera_accepts_zero_zoom :
    (setCamera baseState zeroZoomConfig).camera = zeroZoomConfig ∧
    (setCamera baseState zeroZoomConfig).camera.zoom = 0 ∧
    zeroZoomConfig.zoom = 0 :=
  ⟨rfl, rfl, rfl⟩

/-- C7 amended: neither `setCamera` nor the transforms validate the zoom:
a configuration with zoom `0` is stored verbatim (never rejected or
clamped), and under it `worldToScreen` multiplies by zero, collapsing
every world point to the viewport center; `screenToWorld` likewise
divides by the zero zoom unguarded, its value being whatever the external
fixed-point division yields. -/
theorem setCamera_no_zoom_validation (st : RendererState) (config : CameraConfig)
    (hz : config.zoom = 0) :
    (setCamera st config).camera = config ∧
    ∀ (cosF sinF : ℚ → ℚ) (p : Vec2),
      worldToScreen cosF sinF (setCamera st config).camera st.viewport p =
        ⟨st.viewport.width / 2, st.viewport.height / 2⟩ := by
  refine ⟨rfl, ?_⟩
  intro cosF sinF p
  simp [worldToScreen, setCamera, hz, Vec2.add, Vec2.subtract]

/-- C7 amended, witness: the zero-zoom camera stored by `setCamera` sends
the world point `(7, 9)` to the viewport center `(400, 300)`. -/
theorem setCamera_no_zoom_validation_witness :
    worldToScreen (fun _ => 1) (fun _ => 0)
        (setCamera baseState zeroZoomConfig).camera baseState.viewport ⟨7, 9⟩ =
      ⟨400, 300⟩ := by
  have h := (setCamera_no_zoom_validation baseState zeroZoomConfig rfl).2
    (fun _ => 1) (fun _ => 0) ⟨7, 9⟩
  rw [h]
  norm_num [baseState]

/-- C1: with nonzero zoom, the screen→world transform inverts the
world→screen transform exactly, up to the trigonometric approximation
only. With rotation `0` no trig is used and the round trip is exact (the
zoom multiply-then-divide is exact in the exact-arithmetic model of the
fixed-point scalars). With any rotation, provided the approximation is
even/odd symmetric (as `Math.cos`/`Math.sin` are) and satisfies the
Pythagorean identity `cos² + sin² = 1` at the rotation angle, the round
trip is again exact — the transform logic itself introduces no error
beyond the trig defect. -/
theorem screenToWorld_worldToScreen_roundtrip (cosF sinF : ℚ → ℚ)
    (camera : CameraConfig) (viewport : Viewport) (p : Vec2)
    (hz : camera.zoom ≠ 0) :
    (camera.rotation = 0 →
      screenToWorld cosF sinF camera viewport
        (worldToScreen cosF sinF camera viewport p) = p) ∧
    (cosF (-camera.rotation) = cosF camera.rotation →
      sinF (-camera.rotation) = -sinF camera.rotation →
      cosF camera.rotation ^ 2 + sinF camera.rotation ^ 2 = 1 →
      screenToWorld cosF sinF camera viewport
        (worldToScreen cosF sinF camera viewport p) = p) := by
  obtain ⟨⟨posx, posy⟩, z, rot, b, ft, fs, dz⟩ := camera
  obtain ⟨px, py⟩ := p
  obtain ⟨vx, vy, vw, vh⟩ := viewport
  simp only [ne_eq] at hz
  constructor
  · intro hr
    subst hr
    simp only [worldToScreen, screenToWorld, Vec2.add, Vec2.subtract, ite_true,
      if_true, reduceIte, Vec2.mk.injEq]
    constructor <;> (field_simp; try ring)
  · intro hc hs hcs
    by_cases hr : rot = 0
    · subst hr
      simp only [worldToScreen, screenToWorld, Vec2.add, Vec2.subtract, ite_true,
        if_true, reduceIte, Vec2.mk.injEq]
      constructor <;> (field_simp; try ring)
    · simp only [worldToScreen, screenToWorld, Vec2.add, Vec2.subtract, hr,
        ite_false, if_false, reduceIte, hc, hs, Vec2.mk.injEq]
      constructor
      · field_simp
        linear_combination ((px - posx) * z) * hcs
      · field_simp
        linear_combination ((py - posy) * z) * hcs

/-- The fixed-point cosine approximation used by the round-trip witness:
constantly `3/5`. -/
def cosApprox : ℚ → ℚ := fun _ => 3 / 5

/-- The fixed-point sine approximation used by the round-trip witness:
`4/5` with the sign of the angle (odd, and `3/5² + 4/5² = 1`). -/
def sinApprox : ℚ → ℚ := fun angle => if angle < 0 then -(4 / 5) else 4 / 5

/-- A camera with rotation `1`, zoom `2`, positioned at `(1, 2)`. -/
def rotCamera : CameraConfig := ⟨⟨1, 2⟩, 2, 1, none, none, none, none⟩

/-- The default `800×600` viewport. -/
def vp800 : Viewport := ⟨0, 0, 800, 600⟩

/-- C1, witness: the round trip through the rotated, zoomed camera is
exact at `(3, 5)` for the Pythagorean approximation `(3/5, 4/5)`. -/
theorem screenToWorld_worldToScreen_roundtrip_witness :
    screenToWorld cosApprox sinApprox rotCamera vp800
      (worldToScreen cosApprox sinApprox rotCamera vp800 ⟨3, 5⟩) = ⟨3, 5⟩ :=
  (screenToWorld_worldToScreen_roundtrip cosApprox sinApprox rotCamera vp800 ⟨3, 5⟩
    (by norm_num [rotCamera])).2
    (by norm_num [cosApprox, rotCamera])
    (by norm_num [sinApprox, rotCamera])
    (by norm_num [cosApprox, sinApprox, rotCamera])

end NovaRender
